import Mathlib

/-!
Shallow embedding of the plasmonic-lattice repository
(`plasmonic_lattice.py`, `ewald_test.py`, `archive/_extended_cell.py`)
and proofs settling the claims C1..C10 about it.

Modelling conventions.

* Machine floating point is modelled by exact rationals `ℚ`; Python complex
  scalars by the pair type `CQ` below.  Division is total (`x / 0 = 0`).
* The external numerical primitives that the code consumes from
  numpy/scipy (spec section 6 lists them as an external library contract:
  Hankel functions, generalized exponential integrals `E_n`, `Ei`, the real
  exponential, square root, `arctan2`, `π`, and the frequency/wavenumber
  conversion constant `ev`) are modelled by an abstract parameter structure
  `Prims`.  Every embedded function is parametric in a `Prims`, so the
  theorems below are structural properties of the code, valid for every
  interpretation of the primitives; concrete counterexamples instantiate
  the primitives with simple rational-valued functions (`testPrims`).
* Functions from `plasmonic_lattice.py` live in namespace `PL`, functions
  from `ewald_test.py` in namespace `ET`.  Loops that accumulate with
  `_sum +=` are rendered as sums over the mapped list; the two loops that
  instead overwrite with `_sum =` (the `t2IntegralFunc` of both files) are
  rendered as the corresponding overwriting fold.
-/

/-- 2D real vectors `(x, y)` (length-2 numpy arrays in the source). -/
abbrev V : Type := ℚ × ℚ

/-- `np.dot` for 2D vectors. -/
def dotV (v w : V) : ℚ := v.1 * w.1 + v.2 * w.2

/-- `np.cross` for 2D vectors (the scalar z-component). -/
def crossV (v w : V) : ℚ := v.1 * w.2 - v.2 * w.1

/-- Integer scalar times vector (`n*t1` with loop indices). -/
def zsm (n : ℤ) (v : V) : V := ((n : ℚ) * v.1, (n : ℚ) * v.2)

/-- The rotation matrix `R = [[0, -1], [1, 0]]` applied to a vector. -/
def rot90 (v : V) : V := (-v.2, v.1)

/-- Vector divided by a real scalar. -/
def vdiv (v : V) (c : ℚ) : V := (v.1 / c, v.2 / c)

/-- Real scalar times vector. -/
def qsm (c : ℚ) (v : V) : V := (c * v.1, c * v.2)

/-- List indexing `intracell[n].pos` (indices are in range in the source;
out-of-range defaults to the origin). -/
def pget (l : List V) (n : ℕ) : V := l.getD n (0, 0)

/-- Complex scalars with rational components, modelling Python complex
numbers. -/
structure CQ where
  re : ℚ
  im : ℚ
deriving DecidableEq

instance : Zero CQ := ⟨⟨0, 0⟩⟩

instance : One CQ := ⟨⟨1, 0⟩⟩

instance : Add CQ := ⟨fun a b => ⟨a.re + b.re, a.im + b.im⟩⟩

instance : Neg CQ := ⟨fun a => ⟨-a.re, -a.im⟩⟩

instance : Sub CQ := ⟨fun a b => ⟨a.re - b.re, a.im - b.im⟩⟩

instance : Mul CQ := ⟨fun a b => ⟨a.re * b.re - a.im * b.im, a.re * b.im + a.im * b.re⟩⟩

/-- The imaginary unit `1j`. -/
def CQ.iu : CQ := ⟨0, 1⟩

/-- A real (rational) scalar viewed as a complex number. -/
def CQ.ofRat (c : ℚ) : CQ := ⟨c, 0⟩

/-- `np.conjugate`. -/
def CQ.conj (z : CQ) : CQ := ⟨z.re, -z.im⟩

/-- A complex number divided by a real scalar. -/
def CQ.divR (z : CQ) (c : ℚ) : CQ := ⟨z.re / c, z.im / c⟩

/-- `z ** n` for a nonnegative integer exponent. -/
def CQ.npow (z : CQ) : ℕ → CQ
  | 0 => 1
  | n + 1 => z * CQ.npow z n

/-- Sum of a list of complex numbers (`sum(...)` / `+=` accumulation). -/
def csum (l : List CQ) : CQ := l.foldr (· + ·) 0

/-- A 2x2 complex matrix `[[e11, e12], [e21, e22]]`. -/
structure M2 where
  e11 : CQ
  e12 : CQ
  e21 : CQ
  e22 : CQ
deriving DecidableEq

instance : Zero M2 := ⟨⟨0, 0, 0, 0⟩⟩

instance : Add M2 := ⟨fun A B => ⟨A.e11 + B.e11, A.e12 + B.e12, A.e21 + B.e21, A.e22 + B.e22⟩⟩

/-- Matrix times a complex scalar (`green(...) * np.exp(...)`). -/
def M2.mulS (A : M2) (z : CQ) : M2 := ⟨A.e11 * z, A.e12 * z, A.e21 * z, A.e22 * z⟩

/-- Sum of a list of 2x2 matrices. -/
def msum (l : List M2) : M2 := l.foldr (· + ·) 0

/-- The external numerical primitives (spec section 6's external library
contract), abstract parameters of the embedding:

* `rexp x` models `np.exp(x)` for a real argument;
* `eexp x` models `np.exp(1j*x)`, the complex exponential of a purely
  imaginary argument (the only way the code applies `np.exp` to complex
  input);
* `expn n x` models `sp.special.expn(n, x)`, the generalized exponential
  integral `E_n(x)`;
* `expi x` models `sp.special.expi(x)`;
* `hankel n x` models `sp.special.hankel1(n, x)` (complex valued);
* `sqrt x` models the square root used by `np.linalg.norm` and `np.sqrt`;
* `atan2 y x` models `np.arctan2(y, x)`;
* `pi` models `np.pi` and `ev` the module-level frequency-to-wavenumber
  conversion constant (`k = w * ev`).

`sqrt_zero` is the one fact about the primitives the development relies on:
the norm of the zero vector is zero (used only to translate the branch
condition `np.linalg.norm(self.pos) == 0`). -/
structure Prims where
  rexp : ℚ → ℚ
  eexp : ℚ → CQ
  expn : ℕ → ℚ → ℚ
  expi : ℚ → ℚ
  hankel : ℕ → ℚ → CQ
  sqrt : ℚ → ℚ
  atan2 : ℚ → ℚ → ℚ
  pi : ℚ
  ev : ℚ
  sqrt_zero : sqrt 0 = 0

/-- `np.linalg.norm` of a 2D vector. -/
def nrm (P : Prims) (v : V) : ℚ := P.sqrt (dotV v v)

/-- `np.linalg.norm(v)**2` exactly as the code computes it (square of the
square root, not the sum of squares). -/
def nsq (P : Prims) (v : V) : ℚ := (nrm P v) ^ 2

/-- The `_type` string argument of `getLattice` (`'bravais'` or
`'reciprocal'`). -/
inductive LatType where
  | bravais
  | reciprocal

/-- `np.arange(-number, number+1)` as a list of integers. -/
def intRange (number : ℕ) : List ℤ :=
  (List.range (2 * number + 1)).map (fun i => (i : ℤ) - (number : ℤ))

/-- The shared double loop of `Lattice.genBravais` / `Lattice.genReciprocal`
(`ewald_test.py` lines 30-57) and `Square.getLattice`
(`plasmonic_lattice.py` lines 98-106): all points `n*t1 + m*t2` for
`n, m` in `[-number, number]`, appending only when `n != 0 or m != 0`
if `origin` is false. -/
def latLoop (t1 t2 : V) (number : ℕ) (origin : Bool) : List V :=
  (intRange number).flatMap (fun n =>
    (intRange number).flatMap (fun m =>
      match origin with
      | false => if n ≠ 0 ∨ m ≠ 0 then [zsm n t1 + zsm m t2] else []
      | true => [zsm n t1 + zsm m t2]))

/-- First reciprocal vector `b1 = 2π·(R a2)/(a1·(R a2))` from
`Lattice.__init__` (`ewald_test.py` lines 23-28) and
`Square.getReciprocalVectors` (`plasmonic_lattice.py` lines 60-67). -/
def recipB1 (P : Prims) (a1 a2 : V) : V :=
  vdiv (qsm (2 * P.pi) (rot90 a2)) (dotV a1 (rot90 a2))

/-- Second reciprocal vector `b2 = 2π·(R a1)/(a2·(R a1))`. -/
def recipB2 (P : Prims) (a1 a2 : V) : V :=
  vdiv (qsm (2 * P.pi) (rot90 a1)) (dotV a2 (rot90 a1))

/-- `Square.getLatticeVectors`: `a1 = (0, scaling*spacing)`,
`a2 = (scaling*spacing, 0)`. -/
def squareLatticeVectors (spacing scaling : ℚ) : V × V :=
  ((0, scaling * spacing), (scaling * spacing, 0))

/-- `Square.getLattice(_type, origin)` (`plasmonic_lattice.py` lines
88-106). -/
def squareGetLattice (P : Prims) (spacing scaling : ℚ) (neighbours : ℕ)
    (t : LatType) (origin : Bool) : List V :=
  match t with
  | LatType.bravais =>
      latLoop (squareLatticeVectors spacing scaling).1
        (squareLatticeVectors spacing scaling).2 neighbours origin
  | LatType.reciprocal =>
      latLoop
        (recipB1 P (squareLatticeVectors spacing scaling).1 (squareLatticeVectors spacing scaling).2)
        (recipB2 P (squareLatticeVectors spacing scaling).1 (squareLatticeVectors spacing scaling).2)
        neighbours origin

/-- `SimpleHoneycomb.getLattice(_type, origin)` (`plasmonic_lattice.py`
lines 217-226).  Note that the source ignores both the `_type` and the
`origin` argument: every point `n*t1 + m*t2`, including the origin
`n = m = 0`, is appended unconditionally. -/
def simpleHoneycombGetLattice (P : Prims) (spacing scaling : ℚ) (neighbours : ℕ)
    (_t : LatType) (_origin : Bool) : List V :=
  (intRange neighbours).flatMap (fun n =>
    (intRange neighbours).flatMap (fun m =>
      [zsm n (scaling * 1.5 * spacing, scaling * spacing * P.sqrt 3 / 2) +
        zsm m (scaling * 1.5 * spacing, -(scaling * spacing * P.sqrt 3 / 2))]))

/-- The data held by an `Ewald` object: wavevector `q`, evaluation position
`pos`, splitting parameter `E` (η), truncation order `jmax`, the lattice
vectors `a1, a2`, and the three lattice point lists the methods draw from:

* `bravais` is `getLattice('bravais', True)` / `self.bravais`;
* `bravaisNoOrigin` is `getLattice('bravais', False)` /
  `genBravais(neighbours, False)` (used by `t2_lim`);
* `recips` is `getLattice('reciprocal', True)` / `self.reciprocal`. -/
structure EwaldCtx where
  q : V
  pos : V
  E : ℚ
  jmax : ℕ
  a1 : V
  a2 : V
  bravais : List V
  bravaisNoOrigin : List V
  recips : List V

/-- `float(np.cross(a1, a2))`, the unit-cell area. -/
def cellArea (c : EwaldCtx) : ℚ := crossV c.a1 c.a2

/-- The `"xx"` / `"xy"` / `"yy"` component-selection strings of the dyadic
Ewald functions. -/
inductive Comp where
  | xx
  | xy
  | yy

namespace PL

/-- `Ewald.ewaldG1` of `plasmonic_lattice.py` (lines 467-475): note the
`-(1./area)` scaling of every summand. -/
def ewaldG1 (P : Prims) (c : EwaldCtx) (w : ℚ) : CQ :=
  csum (c.recips.map (fun G =>
    let k := w * P.ev
    let beta := c.q + G
    CQ.ofRat (-(1 / cellArea c)) *
      CQ.divR (P.eexp (dotV beta c.pos) *
          CQ.ofRat (P.rexp ((k ^ 2 - nsq P beta) / (4 * c.E ^ 2))))
        (nsq P beta - k ^ 2)))

/-- `Ewald.integralFunc` of `plasmonic_lattice.py` (lines 477-482): the
loop accumulates with `_sum +=`. -/
def integralFunc (P : Prims) (E : ℚ) (j_max : ℕ) (separation w : ℚ) : ℚ :=
  List.foldl (fun s j =>
      s + 1 / (Nat.factorial j : ℚ) * ((w * P.ev) / (2 * E)) ^ (2 * j) *
        P.expn (j + 1) (separation ^ 2 * E ^ 2))
    0 (List.range (j_max + 1))

/-- `Ewald.ewaldG2` of `plasmonic_lattice.py` (lines 484-489): note the
`-(1./(4π))` scaling. -/
def ewaldG2 (P : Prims) (c : EwaldCtx) (w : ℚ) : CQ :=
  csum (c.bravais.map (fun R =>
    let distance := nrm P (c.pos - R)
    CQ.ofRat (-(1 / (4 * P.pi))) * P.eexp (dotV c.q R) *
      CQ.ofRat (integralFunc P c.E c.jmax distance w)))

/-- `Ewald.monopolarSum` of `plasmonic_lattice.py` (lines 491-492). -/
def monopolarSum (P : Prims) (c : EwaldCtx) (w : ℚ) : CQ :=
  ewaldG1 P c w + ewaldG2 P c w

/-- `Ewald.dyadicEwaldG1` of `plasmonic_lattice.py` (lines 494-516). -/
def dyadicEwaldG1 (P : Prims) (c : EwaldCtx) (w : ℚ) : Comp → CQ
  | Comp.xx => csum (c.recips.map (fun G =>
      let k := w * P.ev
      let beta := c.q + G
      CQ.ofRat ((k ^ 2 + beta.1 ^ 2) * (1 / cellArea c)) *
        CQ.divR (P.eexp (dotV beta c.pos) *
            CQ.ofRat (P.rexp ((k ^ 2 - nsq P beta) / (4 * c.E ^ 2))))
          (nsq P beta - k ^ 2)))
  | Comp.xy => csum (c.recips.map (fun G =>
      let k := w * P.ev
      let beta := c.q + G
      CQ.ofRat ((beta.1 * beta.2) * (1 / cellArea c)) *
        CQ.divR (P.eexp (dotV beta c.pos) *
            CQ.ofRat (P.rexp ((k ^ 2 - nsq P beta) / (4 * c.E ^ 2))))
          (nsq P beta - k ^ 2)))
  | Comp.yy => csum (c.recips.map (fun G =>
      let k := w * P.ev
      let beta := c.q + G
      CQ.ofRat ((k ^ 2 + beta.2 ^ 2) * (1 / cellArea c)) *
        CQ.divR (P.eexp (dotV beta c.pos) *
            CQ.ofRat (P.rexp ((k ^ 2 - nsq P beta) / (4 * c.E ^ 2))))
          (nsq P beta - k ^ 2)))

/-- `Ewald.dyadicIntegralFunc` of `plasmonic_lattice.py` (lines 540-556);
the loop runs over `range(1, j_max+1)`. -/
def dyadicIntegralFunc (P : Prims) (c : EwaldCtx) (w : ℚ) (rho : V) : Comp → ℚ
  | Comp.xx => ((List.range' 1 c.jmax).map (fun j =>
      let k := w * P.ev
      (1 / (Nat.factorial j : ℚ) * (k / (2 * c.E)) ^ (2 * j)) *
        (4 * rho.1 ^ 2 * c.E ^ 4 * P.expn (j - 1) (nsq P rho * c.E ^ 2) -
          2 * c.E ^ 2 * P.expn j (nsq P rho * c.E ^ 2)))).sum
  | Comp.xy => ((List.range' 1 c.jmax).map (fun j =>
      let k := w * P.ev
      (1 / (Nat.factorial j : ℚ) * (k / (2 * c.E)) ^ (2 * j)) *
        (4 * rho.1 * rho.2 * c.E ^ 4 * P.expn (j - 1) (nsq P rho * c.E ^ 2)))).sum
  | Comp.yy => ((List.range' 1 c.jmax).map (fun j =>
      let k := w * P.ev
      (1 / (Nat.factorial j : ℚ) * (k / (2 * c.E)) ^ (2 * j)) *
        (4 * rho.2 ^ 2 * c.E ^ 4 * P.expn (j - 1) (nsq P rho * c.E ^ 2) -
          2 * c.E ^ 2 * P.expn j (nsq P rho * c.E ^ 2)))).sum

/-- `Ewald.dyadicEwaldG2` of `plasmonic_lattice.py` (lines 518-538); the
whole sum is divided by `4π` on return. -/
def dyadicEwaldG2 (P : Prims) (c : EwaldCtx) (w : ℚ) (t : Comp) : CQ :=
  CQ.divR
    (csum (c.bravais.map (fun R =>
      let rho := c.pos - R
      match t with
      | Comp.xx =>
          P.eexp (dotV c.q R) *
            CQ.ofRat (dyadicIntegralFunc P c w rho Comp.xx +
              (P.rexp (-(nsq P rho) * c.E ^ 2) / nsq P rho) *
                ((4 * rho.1 ^ 2 / nsq P rho) * (nsq P rho * c.E ^ 2 + 1) - 2))
      | Comp.xy =>
          P.eexp (dotV c.q R) *
            CQ.ofRat (dyadicIntegralFunc P c w rho Comp.xy +
              P.rexp (-(nsq P rho) * c.E ^ 2) *
                (4 * rho.1 * rho.2 / nsq P rho) * (nsq P rho * c.E ^ 2 + 1))
      | Comp.yy =>
          P.eexp (dotV c.q R) *
            CQ.ofRat (dyadicIntegralFunc P c w rho Comp.yy +
              (P.rexp (-(nsq P rho) * c.E ^ 2) / nsq P rho) *
                ((4 * rho.2 ^ 2 / nsq P rho) * (nsq P rho * c.E ^ 2 + 1) - 2)))))
    (4 * P.pi)

/-- `Ewald.t0` of `plasmonic_lattice.py` (lines 570-572). -/
def t0 (P : Prims) (c : EwaldCtx) (w : ℚ) : CQ :=
  CQ.ofRat (-1) -
    CQ.divR CQ.iu P.pi * CQ.ofRat (P.expi ((w * P.ev) ^ 2 / (4 * c.E ^ 2)))

/-- The reciprocal-space sum accumulated by `Ewald.t1_lim` of
`plasmonic_lattice.py` (lines 574-596) at a nonnegative harmonic order. -/
def t1sum (P : Prims) (c : EwaldCtx) (w : ℚ) (n : ℕ) : CQ :=
  csum (c.recips.map (fun G =>
    let k := w * P.ev
    let beta := c.q + G
    let phi := P.atan2 beta.2 beta.1
    CQ.divR (CQ.ofRat 4 * CQ.npow CQ.iu (n + 1)) (cellArea c) *
      CQ.ofRat (1 / (k ^ 2 - nsq P beta)) *
      CQ.ofRat (P.rexp ((k ^ 2 - nsq P beta) / (4 * c.E ^ 2))) *
      CQ.ofRat ((nrm P beta / k) ^ n) *
      P.eexp (-(n : ℚ) * phi)))

/-- `Ewald.t1_lim` of `plasmonic_lattice.py` (lines 574-596): for
`n >= 0` the sum itself, for `n < 0` the sum at `|n|` followed by the
`_sum = -np.conjugate(_sum)` step. -/
def t1_lim (P : Prims) (c : EwaldCtx) (w : ℚ) (n : ℤ) : CQ :=
  if 0 ≤ n then t1sum P c w n.toNat else -CQ.conj (t1sum P c w n.natAbs)

/-- `Ewald.t2IntegralFunc` of `plasmonic_lattice.py` (lines 628-633): the
loop body is `_sum = ...` (no `+=`), an overwriting fold. -/
def t2IntegralFunc (P : Prims) (E : ℚ) (j_max : ℕ) (dist w : ℚ) (j_min : ℕ) : ℚ :=
  List.foldl (fun _s j =>
      1 / (Nat.factorial j : ℚ) * ((w * P.ev) / (2 * E)) ^ (2 * j) *
        P.expn (j + j_min) (dist ^ 2 * E ^ 2))
    0 (List.range (j_max + 1))

/-- `Ewald.t2_I_0` of `plasmonic_lattice.py` (lines 622-623). -/
def t2_I_0 (P : Prims) (E : ℚ) (j_max : ℕ) (dist w : ℚ) : ℚ :=
  0.5 * t2IntegralFunc P E j_max dist w 1

/-- `Ewald.t2_I_1` of `plasmonic_lattice.py` (lines 625-626). -/
def t2_I_1 (P : Prims) (E : ℚ) (j_max : ℕ) (dist w : ℚ) : ℚ :=
  0.5 * E ^ 2 * t2IntegralFunc P E j_max dist w 0

/-- `Ewald.t2_I_2` of `plasmonic_lattice.py` (lines 617-620): note the
`t2_I_1/(2*dist**2)` and `k**2/(8*dist**2)` coefficients. -/
def t2_I_2 (P : Prims) (E : ℚ) (j_max : ℕ) (dist w : ℚ) : ℚ :=
  E ^ (2 * 1) / (2 * 1 * dist ^ 2) *
      P.rexp ((w * P.ev) ^ 2 / (4 * E ^ 2) - dist ^ 2 * E ^ 2) +
    t2_I_1 P E j_max dist w / (2 * dist ^ 2) -
    (w * P.ev) ^ 2 / (8 * dist ^ 2) * t2_I_0 P E j_max dist w

/-- The real-space sum accumulated by `Ewald.t2_lim` of
`plasmonic_lattice.py` (lines 598-615) at harmonic order 0. -/
def t2sum0 (P : Prims) (c : EwaldCtx) (w : ℚ) : CQ :=
  csum (c.bravaisNoOrigin.map (fun R =>
    CQ.divR (CQ.ofRat (-2) * CQ.iu) P.pi * P.eexp (dotV c.q R) *
      CQ.ofRat (t2_I_0 P c.E c.jmax (nrm P R) w)))

/-- The real-space sum accumulated by `Ewald.t2_lim` of
`plasmonic_lattice.py` at a positive harmonic order `n` (the source always
calls `t2_I_2` here, for every `n`). -/
def t2sumPos (P : Prims) (c : EwaldCtx) (w : ℚ) (n : ℕ) : CQ :=
  csum (c.bravaisNoOrigin.map (fun R =>
    -(CQ.ofRat ((2 : ℚ) ^ (n + 1)) * CQ.divR CQ.iu P.pi) *
      P.eexp (dotV c.q R) * P.eexp (-(n : ℚ) * P.atan2 R.2 R.1) *
      CQ.ofRat ((nrm P R / (w * P.ev)) ^ n) *
      CQ.ofRat (t2_I_2 P c.E c.jmax (nrm P R) w)))

/-- `Ewald.t2_lim` of `plasmonic_lattice.py` (lines 598-615). -/
def t2_lim (P : Prims) (c : EwaldCtx) (w : ℚ) (n : ℤ) : CQ :=
  if n = 0 then t2sum0 P c w
  else if 0 < n then t2sumPos P c w n.toNat
  else -CQ.conj (t2sumPos P c w n.natAbs)

/-- The self-interaction branch of `Ewald.dyadicSumEwald` of
`plasmonic_lattice.py` (lines 637-645): the matrix assembled from the
self-term limits `t0`, `t1_lim`, `t2_lim` at harmonics 0 and ±2 only
(`h_neg2` is produced as `-conjugate(h_pos2)`). -/
def dyadicSelf (P : Prims) (c : EwaldCtx) (w : ℚ) : M2 :=
  let k := w * P.ev
  let h0 := t0 P c w + t1_lim P c w 0 + t2_lim P c w 0
  let hp2 := t1_lim P c w 2 + t2_lim P c w 2
  let hn2 := -CQ.conj hp2
  let xxc := CQ.ofRat (-k ^ 2) *
    (CQ.divR CQ.iu 8 * h0 + CQ.divR CQ.iu 16 * (hn2 + hp2))
  let xyc := CQ.ofRat (-k ^ 2) * (CQ.ofRat (1 / 16) * (hn2 - hp2))
  let yyc := CQ.ofRat (-k ^ 2) *
    (CQ.divR CQ.iu 8 * h0 - CQ.divR CQ.iu 16 * (hn2 + hp2))
  ⟨xxc, xyc, xyc, yyc⟩

/-- `Ewald.dyadicSumEwald` of `plasmonic_lattice.py` (lines 635-650):
branches on `np.linalg.norm(self.pos) == 0`. -/
def dyadicSumEwald (P : Prims) (c : EwaldCtx) (w : ℚ) : M2 :=
  if nrm P c.pos = 0 then dyadicSelf P c w
  else
    let k := w * P.ev
    let xxc := dyadicEwaldG1 P c w Comp.xx + dyadicEwaldG2 P c w Comp.xx +
      CQ.ofRat (k ^ 2) * ewaldG2 P c w
    let xyc := dyadicEwaldG1 P c w Comp.xy + dyadicEwaldG2 P c w Comp.xy
    let yyc := dyadicEwaldG1 P c w Comp.yy + dyadicEwaldG2 P c w Comp.yy +
      CQ.ofRat (k ^ 2) * ewaldG2 P c w
    ⟨xxc, xyc, xyc, yyc⟩

/-- `Interaction.green` of `plasmonic_lattice.py` (lines 396-418), the
dyadic Green's function; identical to `green` of
`archive/_extended_cell.py` (lines 49-76) up to the `k = w*ev`
conversion done inline here. -/
def green (P : Prims) (w : ℚ) (distance : V) : M2 :=
  let k := w * P.ev
  let x := distance.1
  let y := distance.2
  let R := nrm P distance
  let arg := k * R
  let xxc := CQ.divR CQ.iu 4 * CQ.ofRat (k ^ 2) *
    (CQ.ofRat (y ^ 2 / R ^ 2) * P.hankel 0 arg +
      CQ.ofRat ((x ^ 2 - y ^ 2) / (k * R ^ 3)) * P.hankel 1 arg)
  let yyc := CQ.divR CQ.iu 4 * CQ.ofRat (k ^ 2) *
    (CQ.ofRat (x ^ 2 / R ^ 2) * P.hankel 0 arg -
      CQ.ofRat ((x ^ 2 - y ^ 2) / (k * R ^ 3)) * P.hankel 1 arg)
  let xyc := CQ.divR CQ.iu 4 * CQ.ofRat (k ^ 2) * CQ.ofRat (x * y / R ^ 2) *
    P.hankel 2 arg
  ⟨xxc, xyc, xyc, yyc⟩

/-- The 2x2 block of `Interaction.interactionMatrix` of
`plasmonic_lattice.py` (lines 420-447) at block row `a`, block column `b`
(cell size > 1 branch).  The `itertools.combinations` loop fills, for every
pair `n < m`, block `(n, m)` with
`sum(green(w, -intracell[n].pos + intracell[m].pos + inter) * exp(1j q·inter))`
and block `(m, n)` with the same expression with the two particle indices
exchanged, so every off-diagonal block `(a, b)` holds the sum with
separation `-intracell[a].pos + intracell[b].pos + inter`; the diagonal
blocks sum over the lattice vectors of nonzero norm only. -/
def interactionBlock (P : Prims) (q : V) (intracell intercell : List V)
    (w : ℚ) (a b : ℕ) : M2 :=
  if a = b then
    msum ((intercell.filter (fun R => decide (nrm P R ≠ 0))).map (fun R =>
      M2.mulS (green P w R) (P.eexp (dotV q R))))
  else
    msum (intercell.map (fun R =>
      M2.mulS (green P w (-(pget intracell a) + pget intracell b + R))
        (P.eexp (dotV q R))))

end PL

namespace ET

/-- `Ewald.ewaldG1` of `ewald_test.py` (lines 193-201): same sum as
`PL.ewaldG1` but with the positive `(1./area)` scaling. -/
def ewaldG1 (P : Prims) (c : EwaldCtx) (w : ℚ) : CQ :=
  csum (c.recips.map (fun G =>
    let k := w * P.ev
    let beta := c.q + G
    CQ.ofRat (1 / cellArea c) *
      CQ.divR (P.eexp (dotV beta c.pos) *
          CQ.ofRat (P.rexp ((k ^ 2 - nsq P beta) / (4 * c.E ^ 2))))
        (nsq P beta - k ^ 2)))

/-- `Ewald.integralFunc` of `ewald_test.py` (lines 203-209): accumulates
with `_sum +=`, identically to `PL.integralFunc`. -/
def integralFunc (P : Prims) (E : ℚ) (j_max : ℕ) (separation w : ℚ) : ℚ :=
  List.foldl (fun s j =>
      s + 1 / (Nat.factorial j : ℚ) * ((w * P.ev) / (2 * E)) ^ (2 * j) *
        P.expn (j + 1) (separation ^ 2 * E ^ 2))
    0 (List.range (j_max + 1))

/-- `Ewald.t2IntegralFunc` of `ewald_test.py` (lines 419-424): like the
`plasmonic_lattice.py` copy, the loop body is `_sum = ...`, an overwriting
fold (the `j_min` offset is called `j_factor` there). -/
def t2IntegralFunc (P : Prims) (E : ℚ) (j_max : ℕ) (dist w : ℚ) (j_factor : ℕ) : ℚ :=
  List.foldl (fun _s j =>
      1 / (Nat.factorial j : ℚ) * ((w * P.ev) / (2 * E)) ^ (2 * j) *
        P.expn (j + j_factor) (dist ^ 2 * E ^ 2))
    0 (List.range (j_max + 1))

/-- `Ewald.t2_I_0` of `ewald_test.py` (lines 413-414). -/
def t2_I_0 (P : Prims) (E : ℚ) (j_max : ℕ) (dist w : ℚ) : ℚ :=
  0.5 * t2IntegralFunc P E j_max dist w 1

/-- `Ewald.t2_I_1` of `ewald_test.py` (lines 416-417). -/
def t2_I_1 (P : Prims) (E : ℚ) (j_max : ℕ) (dist w : ℚ) : ℚ :=
  0.5 * E ^ 2 * t2IntegralFunc P E j_max dist w 0

/-- `Ewald.t2_I_n` of `ewald_test.py` (lines 403-411), the recurrence
family.  The source never calls it at `n = 0` (the recursion would not
terminate there); its `n = 2` branch uses `t2_I_0` directly, which is what
index 0 of the family denotes, so the `0` case is mapped to `t2_I_0`. -/
def t2_I_n (P : Prims) (E : ℚ) (j_max : ℕ) (dist w : ℚ) : ℕ → ℚ
  | 0 => t2_I_0 P E j_max dist w
  | 1 => t2_I_1 P E j_max dist w
  | 2 => E ^ 2 / (2 * dist ^ 2) *
        P.rexp ((w * P.ev) ^ 2 / (4 * E ^ 2) - dist ^ 2 * E ^ 2) +
      t2_I_1 P E j_max dist w / dist ^ 2 -
      (w * P.ev) ^ 2 / (4 * dist ^ 2) * t2_I_0 P E j_max dist w
  | n + 3 => E ^ (2 * (n + 2)) / (2 * ((n : ℚ) + 2) * dist ^ 2) *
        P.rexp ((w * P.ev) ^ 2 / (4 * E ^ 2) - dist ^ 2 * E ^ 2) +
      t2_I_n P E j_max dist w (n + 2) / dist ^ 2 -
      (w * P.ev) ^ 2 / (4 * dist ^ 2) * t2_I_n P E j_max dist w (n + 1)

/-- One summand of `Ewald.t1_lim` of `ewald_test.py` (lines 309-330), at
the (nonnegative) harmonic order reached by the loop variable. -/
def t1term (P : Prims) (c : EwaldCtx) (w : ℚ) (n : ℕ) (G : V) : CQ :=
  let k := w * P.ev
  let beta := c.q + G
  let phi := P.atan2 beta.2 beta.1
  CQ.ofRat (4 / cellArea c) * CQ.npow CQ.iu (n + 1) *
    CQ.ofRat (1 / (k ^ 2 - nsq P beta)) *
    CQ.ofRat (P.rexp ((k ^ 2 - nsq P beta) / (4 * c.E ^ 2))) *
    CQ.ofRat ((nrm P beta / k) ^ n) *
    P.eexp (-(n : ℚ) * phi)

/-- `Ewald.t1_lim` of `ewald_test.py` (lines 309-330).  The loop body
starts with `if n < 0: n = abs(n)`, mutating the harmonic order before the
first term is accumulated; the fold threads that mutable `n` together with
the accumulator, and the final `if n < 0: _sum = -np.conjugate(_sum)` tests
the mutated value. -/
def t1_lim (P : Prims) (c : EwaldCtx) (w : ℚ) (n : ℤ) : CQ :=
  let r := c.recips.foldl (fun st G =>
      let n2 : ℤ := if st.1 < 0 then (st.1.natAbs : ℤ) else st.1
      (n2, st.2 + t1term P c w n2.natAbs G))
    ((n, 0) : ℤ × CQ)
  if r.1 < 0 then -CQ.conj r.2 else r.2

end ET

/-- The reciprocal-space sum `G1` exactly as the specification states it
(spec section 4.3): the sum over reciprocal lattice points of
`exp(i(q+G)·pos) · exp((k²-|q+G|²)/(4η²)) / (|q+G|²-k²)`, scaled by
`1/cellArea`. -/
def specEwaldG1 (P : Prims) (c : EwaldCtx) (w : ℚ) : CQ :=
  CQ.ofRat (1 / cellArea c) *
    csum (c.recips.map (fun G =>
      let k := w * P.ev
      let beta := c.q + G
      CQ.divR (P.eexp (dotV beta c.pos) *
          CQ.ofRat (P.rexp ((k ^ 2 - nsq P beta) / (4 * c.E ^ 2))))
        (nsq P beta - k ^ 2)))

/-- The truncated integral series exactly as the claim states it: the sum
over `j = 0..j_max` of `(1/j!) (k/2η)^(2j) E_(j+offset)(s²η²)`. -/
def integralSeriesSpec (P : Prims) (E : ℚ) (j_max : ℕ) (s w : ℚ) (offset : ℕ) : ℚ :=
  ((List.range (j_max + 1)).map (fun j =>
    1 / (Nat.factorial j : ℚ) * ((w * P.ev) / (2 * E)) ^ (2 * j) *
      P.expn (j + offset) (s ^ 2 * E ^ 2))).sum

/-- The direct recomputation of block `(m, n)` exactly as the claim states
it: the sum over inter-cell lattice vectors `R` of the dyadic Green's
function at the sign-flipped separation `pos_n - pos_m + R`, weighted by
the Bloch phase `exp(i q·R)`. -/
def directFlipBlock (P : Prims) (q : V) (intracell intercell : List V)
    (w : ℚ) (n m : ℕ) : M2 :=
  msum (intercell.map (fun R =>
    M2.mulS (PL.green P w (pget intracell n - pget intracell m + R))
      (P.eexp (dotV q R))))

/-- A concrete instantiation of the numerical primitives, used for the
counterexamples and witnesses below (any instantiation would do for the
universally quantified theorems). -/
def testPrims : Prims :=
  ⟨fun _ => 1, fun x => ⟨1, x⟩, fun _ _ => 1, fun _ => 1,
    fun n x => ⟨x, (n : ℚ) + 1⟩, fun x => x, fun y x => y + x, 3, 1, rfl⟩

/-- A small concrete Ewald context: `q = (2,0)`, `pos = (0,0)`, `η = 1`,
`j_max = 0`, square lattice vectors, one real-space point `(0,1)` away from
the origin and the single reciprocal point `(0,0)`. -/
def ctxA : EwaldCtx :=
  ⟨(2, 0), (0, 0), 1, 0, (0, 1), (1, 0), [(0, 1)], [(0, 1)], [(0, 0)]⟩

/-- Like `ctxA` but with the off-origin evaluation position `pos = (1,0)`. -/
def ctxB : EwaldCtx :=
  ⟨(2, 0), (1, 0), 1, 0, (0, 1), (1, 0), [(0, 1)], [(0, 1)], [(0, 0)]⟩

/-! ### Basic component lemmas for `CQ`, `M2` and the list sums -/

theorem CQ.ext2 {a b : CQ} (h1 : a.re = b.re) (h2 : a.im = b.im) : a = b := by
  cases a; cases b; cases h1; cases h2; rfl

@[simp] theorem CQ.add_re (a b : CQ) : (a + b).re = a.re + b.re := rfl

@[simp] theorem CQ.add_im (a b : CQ) : (a + b).im = a.im + b.im := rfl

@[simp] theorem CQ.neg_re (a : CQ) : (-a).re = -a.re := rfl

@[simp] theorem CQ.neg_im (a : CQ) : (-a).im = -a.im := rfl

@[simp] theorem CQ.sub_re (a b : CQ) : (a - b).re = a.re - b.re := rfl

@[simp] theorem CQ.sub_im (a b : CQ) : (a - b).im = a.im - b.im := rfl

@[simp] theorem CQ.mul_re (a b : CQ) : (a * b).re = a.re * b.re - a.im * b.im := rfl

@[simp] theorem CQ.mul_im (a b : CQ) : (a * b).im = a.re * b.im + a.im * b.re := rfl

@[simp] theorem CQ.zero_re : (0 : CQ).re = 0 := rfl

@[simp] theorem CQ.zero_im : (0 : CQ).im = 0 := rfl

@[simp] theorem CQ.one_re : (1 : CQ).re = 1 := rfl

@[simp] theorem CQ.one_im : (1 : CQ).im = 0 := rfl

@[simp] theorem CQ.ofRat_re (c : ℚ) : (CQ.ofRat c).re = c := rfl

@[simp] theorem CQ.ofRat_im (c : ℚ) : (CQ.ofRat c).im = 0 := rfl

@[simp] theorem CQ.conj_re (a : CQ) : a.conj.re = a.re := rfl

@[simp] theorem CQ.conj_im (a : CQ) : a.conj.im = -a.im := rfl

@[simp] theorem CQ.divR_re (a : CQ) (c : ℚ) : (a.divR c).re = a.re / c := rfl

@[simp] theorem CQ.divR_im (a : CQ) (c : ℚ) : (a.divR c).im = a.im / c := rfl

@[simp] theorem CQ.iu_re : CQ.iu.re = 0 := rfl

@[simp] theorem CQ.iu_im : CQ.iu.im = 1 := rfl

@[simp] theorem csum_nil : csum [] = 0 := rfl

@[simp] theorem csum_cons (a : CQ) (l : List CQ) : csum (a :: l) = a + csum l := rfl

@[simp] theorem msum_nil : msum [] = 0 := rfl

@[simp] theorem msum_cons (A : M2) (l : List M2) : msum (A :: l) = A + msum l := rfl

theorem csum_map_neg {α : Type} (l : List α) (f : α → CQ) :
    csum (l.map fun x => -f x) = -csum (l.map f) := by
  induction l with
  | nil => apply CQ.ext2 <;> simp
  | cons a t ih =>
      simp only [List.map_cons, csum_cons, ih]
      apply CQ.ext2 <;>
        simp only [CQ.add_re, CQ.add_im, CQ.neg_re, CQ.neg_im] <;> ring

theorem csum_map_mul {α : Type} (z : CQ) (l : List α) (f : α → CQ) :
    csum (l.map fun x => z * f x) = z * csum (l.map f) := by
  induction l with
  | nil => apply CQ.ext2 <;> simp
  | cons a t ih =>
      simp only [List.map_cons, csum_cons, ih]
      apply CQ.ext2 <;>
        simp only [CQ.add_re, CQ.add_im, CQ.mul_re, CQ.mul_im] <;> ring

theorem CQ.ofRat_neg_mul (c : ℚ) (z : CQ) : CQ.ofRat (-c) * z = -(CQ.ofRat c * z) := by
  apply CQ.ext2 <;>
    simp only [CQ.mul_re, CQ.mul_im, CQ.neg_re, CQ.neg_im, CQ.ofRat_re, CQ.ofRat_im] <;> ring

/-- Claim C10: the dyadic Green's function `Interaction.green` is even
under inversion of the separation vector (`green(w, -d) = green(w, d)`,
every entry depending only on `x²`, `y²` and `x·y`), and the returned
2x2 matrix is symmetric (`e12 = e21`). -/
theorem claim_C10_green_even : ∀ (P : Prims) (w : ℚ) (d : V), d ≠ ((0 : ℚ), (0 : ℚ)) →
    PL.green P w (-d) = PL.green P w d ∧
      (PL.green P w d).e12 = (PL.green P w d).e21 := by
  intro P w d _hd
  obtain ⟨x, y⟩ := d
  refine ⟨?_, rfl⟩
  simp [PL.green, nrm, dotV, neg_mul_neg, neg_sq]

/-- Witness for claim C10 at the concrete separation `(1, 2)`. -/
theorem claim_C10_witness : ((1 : ℚ), (2 : ℚ)) ≠ ((0 : ℚ), (0 : ℚ)) ∧
    (PL.green testPrims 1 (-((1 : ℚ), (2 : ℚ))) = PL.green testPrims 1 ((1 : ℚ), (2 : ℚ)) ∧
      (PL.green testPrims 1 ((1 : ℚ), (2 : ℚ))).e12 = (PL.green testPrims 1 ((1 : ℚ), (2 : ℚ))).e21) :=
  ⟨by simp, claim_C10_green_even testPrims 1 ((1 : ℚ), (2 : ℚ)) (by simp)⟩

/-- Claim C8: the `rot90` reciprocal-vector construction satisfies the 2D
duality relation `a_i · b_j = 2π δ_ij` whenever the lattice vectors are
linearly independent (`cross(a1, a2) ≠ 0`). -/
theorem claim_C8_duality : ∀ (P : Prims) (a1 a2 : V), crossV a1 a2 ≠ 0 →
    dotV a1 (recipB1 P a1 a2) = 2 * P.pi ∧
    dotV a2 (recipB2 P a1 a2) = 2 * P.pi ∧
    dotV a1 (recipB2 P a1 a2) = 0 ∧
    dotV a2 (recipB1 P a1 a2) = 0 := by
  intro P a1 a2 h
  obtain ⟨x1, y1⟩ := a1
  obtain ⟨x2, y2⟩ := a2
  simp only [crossV] at h
  have h1 : -(x1 * y2) + y1 * x2 ≠ 0 := by
    intro h0
    exact h (by linarith)
  have h2 : -(x2 * y1) + y2 * x1 ≠ 0 := by
    intro h0
    exact h (by linarith)
  refine ⟨?_, ?_, ?_, ?_⟩
  · simp only [recipB1, rot90, vdiv, qsm, dotV]
    field_simp
    ring
  · simp only [recipB2, rot90, vdiv, qsm, dotV]
    field_simp
    ring
  · simp only [recipB2, rot90, vdiv, qsm, dotV]
    ring
  · simp only [recipB1, rot90, vdiv, qsm, dotV]
    ring

/-- Witness for claim C8 on the square lattice vectors `(0,1)`, `(1,0)`. -/
theorem claim_C8_witness :
    crossV ((0 : ℚ), (1 : ℚ)) ((1 : ℚ), (0 : ℚ)) ≠ 0 ∧
      (dotV ((0 : ℚ), (1 : ℚ)) (recipB1 testPrims ((0 : ℚ), (1 : ℚ)) ((1 : ℚ), (0 : ℚ))) = 2 * testPrims.pi ∧
       dotV ((1 : ℚ), (0 : ℚ)) (recipB2 testPrims ((0 : ℚ), (1 : ℚ)) ((1 : ℚ), (0 : ℚ))) = 2 * testPrims.pi ∧
       dotV ((0 : ℚ), (1 : ℚ)) (recipB2 testPrims ((0 : ℚ), (1 : ℚ)) ((1 : ℚ), (0 : ℚ))) = 0 ∧
       dotV ((1 : ℚ), (0 : ℚ)) (recipB1 testPrims ((0 : ℚ), (1 : ℚ)) ((1 : ℚ), (0 : ℚ))) = 0) := by
  have h : crossV ((0 : ℚ), (1 : ℚ)) ((1 : ℚ), (0 : ℚ)) ≠ 0 := by norm_num [crossV]
  exact ⟨h, claim_C8_duality testPrims _ _ h⟩

/-- Claim C9: in `Interaction.interactionMatrix`, the block at block row
`m`, block column `n` (for `n < m`) is the direct recomputation: the sum
over inter-cell lattice vectors of the dyadic Green's function at the
sign-flipped separation `pos_n - pos_m + R`, Bloch-weighted by
`exp(i q·R)` — not the conjugate transpose of block `(n, m)`. -/
theorem claim_C9_block_recompute : ∀ (P : Prims) (q : V)
    (intracell intercell : List V) (w : ℚ) (n m : ℕ), n < m →
    PL.interactionBlock P q intracell intercell w m n =
      directFlipBlock P q intracell intercell w n m := by
  intro P q intracell intercell w n m h
  rw [PL.interactionBlock, if_neg (by omega), directFlipBlock]
  simp only [neg_add_eq_sub]

/-- Witness for claim C9 on a concrete two-particle cell. -/
theorem claim_C9_witness : 0 < 1 ∧
    PL.interactionBlock testPrims ((2 : ℚ), (0 : ℚ))
        [((0 : ℚ), (0 : ℚ)), ((1 : ℚ), (0 : ℚ))] [((2 : ℚ), (0 : ℚ))] 1 1 0 =
      directFlipBlock testPrims ((2 : ℚ), (0 : ℚ))
        [((0 : ℚ), (0 : ℚ)), ((1 : ℚ), (0 : ℚ))] [((2 : ℚ), (0 : ℚ))] 1 0 1 :=
  ⟨Nat.zero_lt_one,
    claim_C9_block_recompute testPrims ((2 : ℚ), (0 : ℚ))
      [((0 : ℚ), (0 : ℚ)), ((1 : ℚ), (0 : ℚ))] [((2 : ℚ), (0 : ℚ))] 1 0 1 Nat.zero_lt_one⟩

/-- Every point of `latLoop t1 t2 number false` is `i·t1 + j·t2` with
`(i, j) ≠ (0, 0)`. -/
theorem latLoop_mem {t1 t2 : V} {number : ℕ} {p : V}
    (hp : p ∈ latLoop t1 t2 number false) :
    ∃ i j : ℤ, ¬(i = 0 ∧ j = 0) ∧ p = zsm i t1 + zsm j t2 := by
  simp only [latLoop, List.mem_flatMap] at hp
  obtain ⟨i, _, j, _, hmem⟩ := hp
  by_cases hij : i ≠ 0 ∨ j ≠ 0
  · rw [if_pos hij] at hmem
    simp only [List.mem_singleton] at hmem
    exact ⟨i, j, by tauto, hmem⟩
  · rw [if_neg hij] at hmem
    simp at hmem

/-- A point of an origin-excluded `latLoop` set over linearly independent
vectors is never the origin. -/
theorem latLoop_ne_zero : ∀ (t1 t2 : V) (number : ℕ) (p : V), crossV t1 t2 ≠ 0 →
    p ∈ latLoop t1 t2 number false → p ≠ ((0 : ℚ), (0 : ℚ)) := by
  intro t1 t2 number p hc hp hz
  obtain ⟨i, j, hij, rfl⟩ := latLoop_mem hp
  obtain ⟨u1, u2⟩ := t1
  obtain ⟨v1, v2⟩ := t2
  simp only [zsm, Prod.mk_add_mk, Prod.mk.injEq] at hz
  obtain ⟨h1, h2⟩ := hz
  simp only [crossV] at hc
  have hi : (u1 * v2 - u2 * v1) * (i : ℚ) = 0 := by linear_combination v2 * h1 - v1 * h2
  have hj : (u1 * v2 - u2 * v1) * (j : ℚ) = 0 := by linear_combination u1 * h2 - u2 * h1
  rcases mul_eq_zero.mp hi with h | h
  · exact hc h
  · rcases mul_eq_zero.mp hj with h3 | h3
    · exact hc h3
    · exact hij ⟨by exact_mod_cast h, by exact_mod_cast h3⟩

/-- Claim C7 (amended): for the generators that do honour the origin flag
(`Lattice.genBravais` / `genReciprocal` and `Square.getLattice`), the
origin-excluded point set never contains `(0, 0)` when the generating
vectors are linearly independent. -/
theorem claim_C7_amended :
    (∀ (t1 t2 : V) (number : ℕ) (p : V), crossV t1 t2 ≠ 0 →
        p ∈ latLoop t1 t2 number false → p ≠ ((0 : ℚ), (0 : ℚ))) ∧
    (∀ (P : Prims) (spacing scaling : ℚ) (neighbours : ℕ) (p : V), spacing * scaling ≠ 0 →
        p ∈ squareGetLattice P spacing scaling neighbours LatType.bravais false →
          p ≠ ((0 : ℚ), (0 : ℚ))) := by
  constructor
  · exact latLoop_ne_zero
  · intro P spacing scaling neighbours p hs hp
    refine latLoop_ne_zero ((0 : ℚ), scaling * spacing) (scaling * spacing, (0 : ℚ)) neighbours p ?_ hp
    simp only [crossV]
    intro h0
    apply hs
    have : scaling * spacing = 0 := by nlinarith [sq_nonneg (scaling * spacing)]
    linarith [mul_comm spacing scaling, this]

/-- Counterexample for claim C7 as stated: `SimpleHoneycomb.getLattice`
ignores the origin flag, so its point set contains `(0, 0)` even when the
origin is requested to be excluded. -/
theorem claim_C7_counterexample :
    ((0 : ℚ), (0 : ℚ)) ∈ simpleHoneycombGetLattice testPrims 1 1 1 LatType.bravais false := by
  simp only [simpleHoneycombGetLattice, intRange, List.range_succ, List.range_zero]
  norm_num [zsm, List.mem_flatMap]

/-- Witness for the amended claim C7: the point `(0, 1)` of the
origin-excluded square lattice (`i = 1`, `j = 0`) is not the origin. -/
theorem claim_C7_witness :
    (crossV ((0 : ℚ), (1 : ℚ)) ((1 : ℚ), (0 : ℚ)) ≠ 0 ∧
      ((0 : ℚ), (1 : ℚ)) ∈ latLoop ((0 : ℚ), (1 : ℚ)) ((1 : ℚ), (0 : ℚ)) 1 false ∧
      ((0 : ℚ), (1 : ℚ)) ≠ ((0 : ℚ), (0 : ℚ))) ∧
    ((1 : ℚ) * 1 ≠ 0 ∧
      ((0 : ℚ), (1 : ℚ)) ∈ squareGetLattice testPrims 1 1 1 LatType.bravais false ∧
      ((0 : ℚ), (1 : ℚ)) ≠ ((0 : ℚ), (0 : ℚ))) := by
  have hc : crossV ((0 : ℚ), (1 : ℚ)) ((1 : ℚ), (0 : ℚ)) ≠ 0 := by norm_num [crossV]
  have hm : ((0 : ℚ), (1 : ℚ)) ∈ latLoop ((0 : ℚ), (1 : ℚ)) ((1 : ℚ), (0 : ℚ)) 1 false := by
    simp only [latLoop, intRange, List.range_succ, List.range_zero]
    norm_num [zsm, List.mem_flatMap]
  have hm2 : ((0 : ℚ), (1 : ℚ)) ∈ squareGetLattice testPrims 1 1 1 LatType.bravais false := by
    have : squareGetLattice testPrims 1 1 1 LatType.bravais false =
        latLoop ((0 : ℚ), (1 : ℚ)) ((1 : ℚ), (0 : ℚ)) 1 false := by
      norm_num [squareGetLattice, squareLatticeVectors]
    rw [this]
    exact hm
  exact ⟨⟨hc, hm, claim_C7_amended.1 _ _ 1 _ hc hm⟩,
    ⟨by norm_num, hm2, claim_C7_amended.2 testPrims 1 1 1 _ (by norm_num) hm2⟩⟩

/-! ### Constructor-level evaluation lemmas for concrete computations -/

theorem CQ.zero_def : (0 : CQ) = ⟨0, 0⟩ := rfl

theorem CQ.one_def : (1 : CQ) = ⟨1, 0⟩ := rfl

theorem CQ.mk_add_mk (a b c d : ℚ) : (⟨a, b⟩ + ⟨c, d⟩ : CQ) = ⟨a + c, b + d⟩ := rfl

theorem CQ.mk_sub_mk (a b c d : ℚ) : (⟨a, b⟩ - ⟨c, d⟩ : CQ) = ⟨a - c, b - d⟩ := rfl

theorem CQ.mk_mul_mk (a b c d : ℚ) : (⟨a, b⟩ * ⟨c, d⟩ : CQ) = ⟨a * c - b * d, a * d + b * c⟩ := rfl

theorem CQ.neg_mk (a b : ℚ) : (-(⟨a, b⟩ : CQ)) = ⟨-a, -b⟩ := rfl

theorem CQ.divR_mk (a b c : ℚ) : (⟨a, b⟩ : CQ).divR c = ⟨a / c, b / c⟩ := rfl

theorem CQ.conj_mk (a b : ℚ) : (⟨a, b⟩ : CQ).conj = ⟨a, -b⟩ := rfl

theorem CQ.mk_add_zero (a b : ℚ) : (⟨a, b⟩ : CQ) + 0 = ⟨a, b⟩ := by
  apply CQ.ext2 <;> simp

theorem CQ.zero_add_mk (a b : ℚ) : (0 : CQ) + ⟨a, b⟩ = ⟨a, b⟩ := by
  apply CQ.ext2 <;> simp

/-- Claim C5 (amended): `plasmonic_lattice.py`'s `ewaldG1` returns the
specification's reciprocal-space sum scaled by `-1/cellArea` — the
negation of the spec formula — while `ewald_test.py`'s `ewaldG1` returns
the spec formula itself (scaled by `+1/cellArea`). -/
theorem claim_C5_theorem : ∀ (P : Prims) (c : EwaldCtx) (w : ℚ),
    PL.ewaldG1 P c w = -specEwaldG1 P c w ∧ ET.ewaldG1 P c w = specEwaldG1 P c w := by
  intro P c w
  constructor
  · simp only [PL.ewaldG1, specEwaldG1, CQ.ofRat_neg_mul]
    rw [csum_map_neg, csum_map_mul]
  · simp only [ET.ewaldG1, specEwaldG1]
    rw [csum_map_mul]

/-- Counterexample for claim C5 as stated: at a concrete frequency,
context and primitive instantiation, `plasmonic_lattice.py`'s `ewaldG1`
differs from the positively scaled spec formula. -/
theorem claim_C5_counterexample :
    PL.ewaldG1 testPrims ctxB 1 ≠ specEwaldG1 testPrims ctxB 1 := by
  norm_num [PL.ewaldG1, specEwaldG1, ctxB, testPrims, cellArea, crossV, nsq, nrm, dotV,
    Prod.mk_add_mk, CQ.mk_add_zero, CQ.mk_add_mk, CQ.mk_mul_mk, CQ.divR_mk, CQ.ofRat,
    CQ.mk.injEq]

/-- A loop accumulating `s + f j` over a list is the sum of the mapped
list. -/
theorem foldl_add_eq_sum (f : ℕ → ℚ) (l : List ℕ) (a : ℚ) :
    List.foldl (fun s j => s + f j) a l = a + (l.map f).sum := by
  induction l generalizing a with
  | nil => simp
  | cons b t ih => simp [ih, add_assoc]

/-- A loop overwriting its accumulator keeps only the final iteration. -/
theorem foldl_overwrite (g : ℕ → ℚ) (n : ℕ) :
    List.foldl (fun _s j => g j) 0 (List.range (n + 1)) = g n := by
  rw [List.range_succ, List.foldl_append]
  simp

/-- Claim C2: `integralFunc` (both files) does return the full truncated
series, but `t2IntegralFunc` (both files) overwrites its accumulator
(`_sum = ...` instead of `_sum += ...`) and returns only the final
`j = j_max` term; at the failing input `j_max = 1` (with `E_n` interpreted
as the constant 1, `η = dist = w = ev = 1`) it returns `1/4` instead of the
claimed series value `5/4`. -/
theorem claim_C2_integral_series :
    (∀ (P : Prims) (E : ℚ) (j_max : ℕ) (s w : ℚ),
        PL.integralFunc P E j_max s w = integralSeriesSpec P E j_max s w 1) ∧
    (∀ (P : Prims) (E : ℚ) (j_max : ℕ) (s w : ℚ),
        ET.integralFunc P E j_max s w = integralSeriesSpec P E j_max s w 1) ∧
    (∀ (P : Prims) (E : ℚ) (j_max : ℕ) (d w : ℚ) (j_min : ℕ),
        PL.t2IntegralFunc P E j_max d w j_min =
          1 / (Nat.factorial j_max : ℚ) * ((w * P.ev) / (2 * E)) ^ (2 * j_max) *
            P.expn (j_max + j_min) (d ^ 2 * E ^ 2)) ∧
    (∀ (P : Prims) (E : ℚ) (j_max : ℕ) (d w : ℚ) (j_factor : ℕ),
        ET.t2IntegralFunc P E j_max d w j_factor =
          1 / (Nat.factorial j_max : ℚ) * ((w * P.ev) / (2 * E)) ^ (2 * j_max) *
            P.expn (j_max + j_factor) (d ^ 2 * E ^ 2)) ∧
    PL.t2IntegralFunc testPrims 1 1 1 1 1 = 1 / 4 ∧
    PL.t2IntegralFunc testPrims 1 1 1 1 1 ≠ integralSeriesSpec testPrims 1 1 1 1 1 := by
  refine ⟨?_, ?_, ?_, ?_, ?_, ?_⟩
  · intro P E j_max s w
    rw [PL.integralFunc, integralSeriesSpec, foldl_add_eq_sum, zero_add]
  · intro P E j_max s w
    rw [ET.integralFunc, integralSeriesSpec, foldl_add_eq_sum, zero_add]
  · intro P E j_max d w j_min
    rw [PL.t2IntegralFunc, foldl_overwrite]
  · intro P E j_max d w j_factor
    rw [ET.t2IntegralFunc, foldl_overwrite]
  · norm_num [PL.t2IntegralFunc, testPrims, List.range_succ, Nat.factorial]
  · norm_num [PL.t2IntegralFunc, integralSeriesSpec, testPrims, List.range_succ,
      Nat.factorial]

/-- Claim C3: the `ewald_test.py` family `t2_I_n` does satisfy the claimed
base cases and the recurrence
`I_n = η^(2(n-1))/(2(n-1)d²)·exp(k²/4η² - d²η²) + I_(n-1)/d² - (k²/4d²)·I_(n-2)`
for every `n ≥ 2`; but the `t2_I_2` of `plasmonic_lattice.py` — the value
used by the reduced dyadic self-sum — is NOT the `n = 2` instance of that
recurrence (it divides `I_1` by `2d²` and uses `k²/8d²` instead of `I_1/d²`
and `k²/4d²`): at the failing input it yields `11/16` against the
recurrence value `7/8`. -/
theorem claim_C3_recurrence :
    (∀ (P : Prims) (E : ℚ) (j_max : ℕ) (d w : ℚ),
        ET.t2_I_n P E j_max d w 0 = 0.5 * ET.t2IntegralFunc P E j_max d w 1 ∧
        ET.t2_I_n P E j_max d w 1 = 0.5 * E ^ 2 * ET.t2IntegralFunc P E j_max d w 0) ∧
    (∀ (P : Prims) (E : ℚ) (j_max : ℕ) (d w : ℚ) (n : ℕ),
        ET.t2_I_n P E j_max d w (n + 2) =
          E ^ (2 * (n + 1)) / (2 * ((n : ℚ) + 1) * d ^ 2) *
              P.rexp ((w * P.ev) ^ 2 / (4 * E ^ 2) - d ^ 2 * E ^ 2) +
            ET.t2_I_n P E j_max d w (n + 1) / d ^ 2 -
            (w * P.ev) ^ 2 / (4 * d ^ 2) * ET.t2_I_n P E j_max d w n) ∧
    PL.t2_I_2 testPrims 1 0 1 1 ≠ ET.t2_I_n testPrims 1 0 1 1 2 := by
  refine ⟨?_, ?_, ?_⟩
  · exact fun P E j_max d w => ⟨rfl, rfl⟩
  · intro P E j_max d w n
    cases n with
    | zero => simp only [ET.t2_I_n, ET.t2_I_1, ET.t2_I_0]; push_cast; ring_nf
    | succ m => simp only [ET.t2_I_n]; push_cast; ring_nf
  · norm_num [PL.t2_I_2, ET.t2_I_n, PL.t2_I_1, PL.t2_I_0, ET.t2_I_1, ET.t2_I_0,
      PL.t2IntegralFunc, ET.t2IntegralFunc, testPrims, List.range_succ, Nat.factorial]

theorem CQ.zero_add2 (z : CQ) : 0 + z = z := by
  apply CQ.ext2 <;> simp

theorem CQ.add_zero2 (z : CQ) : z + 0 = z := by
  apply CQ.ext2 <;> simp

theorem CQ.mul_one2 (z : CQ) : z * 1 = z := by
  apply CQ.ext2 <;> simp

theorem CQ.one_mul2 (z : CQ) : 1 * z = z := by
  apply CQ.ext2 <;> simp

/-- Claim C4: the negative-harmonic symmetry
`t_lim(w, -n) = -conjugate(t_lim(w, n))` holds structurally, for every
positive harmonic order, for `t1_lim` and `t2_lim` of
`plasmonic_lattice.py`; but `t1_lim` of `ewald_test.py` violates it: its
loop body reassigns `n = abs(n)`, so the trailing negate-conjugate step is
dead and `t1_lim(w, -n) = t1_lim(w, n)` instead, which differs from
`-conjugate(t1_lim(w, n))` at the concrete failing input. -/
theorem claim_C4_negative_harmonic :
    (∀ (P : Prims) (c : EwaldCtx) (w : ℚ) (n : ℕ),
        PL.t1_lim P c w (-((n : ℤ) + 1)) = -CQ.conj (PL.t1_lim P c w ((n : ℤ) + 1))) ∧
    (∀ (P : Prims) (c : EwaldCtx) (w : ℚ) (n : ℕ),
        PL.t2_lim P c w (-((n : ℤ) + 1)) = -CQ.conj (PL.t2_lim P c w ((n : ℤ) + 1))) ∧
    (ET.t1_lim testPrims ctxA 1 (-1) = ET.t1_lim testPrims ctxA 1 1 ∧
      ET.t1_lim testPrims ctxA 1 (-1) ≠ -CQ.conj (ET.t1_lim testPrims ctxA 1 1)) := by
  refine ⟨?_, ?_, ?_, ?_⟩
  · intro P c w n
    rw [PL.t1_lim, PL.t1_lim, if_neg (by omega), if_pos (by omega)]
    have h : (-((n : ℤ) + 1)).natAbs = ((n : ℤ) + 1).toNat := by omega
    rw [h]
  · intro P c w n
    have h1 : ¬(-((n : ℤ) + 1) = 0) := by omega
    have h2 : ¬(0 < -((n : ℤ) + 1)) := by omega
    have h3 : ¬((n : ℤ) + 1 = 0) := by omega
    have h4 : 0 < (n : ℤ) + 1 := by omega
    rw [PL.t2_lim, PL.t2_lim, if_neg h1, if_neg h2, if_neg h3, if_pos h4]
    have h : (-((n : ℤ) + 1)).natAbs = ((n : ℤ) + 1).toNat := by omega
    rw [h]
  · norm_num [ET.t1_lim, ET.t1term, ctxA, testPrims, cellArea, crossV, nsq, nrm, dotV,
      CQ.npow, CQ.iu, CQ.zero_add2, CQ.mul_one2, CQ.mk_mul_mk, CQ.ofRat]
  · norm_num [ET.t1_lim, ET.t1term, ctxA, testPrims, cellArea, crossV, nsq, nrm, dotV,
      CQ.npow, CQ.iu, CQ.zero_add2, CQ.mul_one2, CQ.mk_mul_mk, CQ.ofRat, CQ.conj_mk,
      CQ.neg_mk, CQ.mk.injEq]

/-- Claim C6: at the self-interaction position `(0, 0)`,
`Ewald.dyadicSumEwald` takes the self-term branch, so its value is the
assembly `dyadicSelf` built exclusively from `t0`, `t1_lim`, `t2_lim`
(harmonics 0 and ±2); moreover that assembly does not depend on the
evaluation position at all, so the general-distance branch (which divides
by the separation norm) is never consulted. -/
theorem claim_C6_self_branch :
    (∀ (P : Prims) (c : EwaldCtx) (w : ℚ), c.pos = ((0 : ℚ), (0 : ℚ)) →
        PL.dyadicSumEwald P c w = PL.dyadicSelf P c w) ∧
    (∀ (P : Prims) (w : ℚ) (q p1 p2 : V) (E : ℚ) (jm : ℕ) (a1 a2 : V)
        (br brno rcs : List V),
        PL.dyadicSelf P ⟨q, p1, E, jm, a1, a2, br, brno, rcs⟩ w =
          PL.dyadicSelf P ⟨q, p2, E, jm, a1, a2, br, brno, rcs⟩ w) := by
  constructor
  · intro P c w h
    have hd : dotV ((0 : ℚ), (0 : ℚ)) ((0 : ℚ), (0 : ℚ)) = 0 := by norm_num [dotV]
    have hc : nrm P c.pos = 0 := by rw [h, nrm, hd, P.sqrt_zero]
    rw [PL.dyadicSumEwald, if_pos hc]
  · intro P w q p1 p2 E jm a1 a2 br brno rcs
    rfl

/-- Witness for claim C6 at the concrete context `ctxA` (whose evaluation
position is the origin). -/
theorem claim_C6_witness :
    ctxA.pos = ((0 : ℚ), (0 : ℚ)) ∧
      PL.dyadicSumEwald testPrims ctxA 1 = PL.dyadicSelf testPrims ctxA 1 :=
  ⟨rfl, claim_C6_self_branch.1 testPrims ctxA 1 rfl⟩
